import Mathlib

/-!
# Verification of the `xerr` error-handling library

Shallow embedding of the two components of the `xerr` Go package:
`stackError` (an error enriched with a call stack, `stack_error.go`) and
`MultiError` (an aggregate of errors, `multi_error.go`), together with
proofs about the claims of the specification.

## Modelling conventions

* A Go `error` interface value is either the nil interface, modelled as
  `none : Option Err`, or a non-nil value of one of the three concrete error
  types appearing in the library and its tests, modelled by the inductive
  `Err`:
  - `Err.base id msg` — an error created by `errors.New` (or any foreign,
    plain error value): it has an `Error()` message and implements neither
    `Unwrap`, `Is`, `As` nor `fmt.Formatter`;
  - `Err.stack id orig pcs msg` — a `*stackError` with original error
    `orig`, captured program counters `pcs` and message `msg`;
  - `Err.multi id items hasMu` — a non-nil `*MultiError` holding the
    errors `items`; `hasMu` records whether its mutex field is set
    (`NewMultiError`) or nil (`newMultiError`).
* Every allocation carries a `Nat` identity `id` modelling its pointer.
  Go interface equality (`==` between error values) holds exactly for the
  same allocation, so it is modelled by `goPtrEq`: same constructor and same
  id.  The modelling discipline is that distinct allocations get distinct
  ids, and a shared id within a constructor denotes the very same
  allocation (hence equal fields).
* Program counters (`uintptr` values filled in by `runtime.Callers`) are
  opaque `Nat`s.  `getCallStack` depends on the runtime call stack, so the
  functions that call it (`Wrap`) take the captured slice as an explicit
  parameter; theorems constrain its length exactly as the source
  constrains it (`getCallStack 1` yields at most one frame,
  `getCallStack maxStackFrames` at most `maxStackFrames`).
* Functions that allocate (`Wrap`, `newMultiError` inside `Add`/`AddOnce`/
  `Unwrap`) take the fresh pointer id as an explicit parameter.
-/

/-- Maximum depth of callstack (`maxStackFrames` in `stack_error.go`). -/
def maxStackFrames : Nat := 32

/-- A non-nil Go `error` interface value, as used by the `xerr` package.
See the module docstring for the reading of each constructor. -/
inductive Err : Type where
  | base (id : Nat) (msg : String)
  | stack (id : Nat) (orig : Option Err) (stackPCs : List Nat) (msg : String)
  | multi (id : Nat) (items : List Err) (hasMu : Bool)
deriving Repr

/-- Go interface equality between two non-nil error values: true exactly
for the same allocation (same dynamic type and same pointer), modelled as
same constructor with the same id. -/
def goPtrEq : Err → Err → Bool
  | .base i _, .base j _ => i == j
  | .stack i _ _ _, .stack j _ _ _ => i == j
  | .multi i _ _, .multi j _ _ => i == j
  | _, _ => false

mutual

/-- `Error()` of a non-nil error value.
For `Err.base` it is the stored message (`errors.New` semantics).
For `Err.stack` it is `stackError.Error` (`stack_error.go:33`): the
message, then if `origErr != nil` either the original error's message
(when `msg` is empty) or `msg ++ ": " ++ origErr.Error()`.
For `Err.multi` it is `MultiError.Error` (`multi_error.go:48`) on a
non-nil receiver, given by `multiErrorStr`. -/
def Err.errorMsg : Err → String
  | .base _ msg => msg
  | .stack _ orig _ msg =>
    match orig with
    | none => msg
    | some o => if msg = "" then o.errorMsg else msg ++ ": " ++ o.errorMsg
  | .multi _ items _ => multiErrorStr items
termination_by e => (sizeOf e, 0)

/-- Body of `MultiError.Error` after the nil-receiver check
(`multi_error.go:55-68`): empty string for no items, the sole item's
message for one item, otherwise the buffer of all messages each followed
by a newline, with the final byte (that trailing newline) dropped. -/
def multiErrorStr (items : List Err) : String :=
  match items with
  | [] => ""
  | [e] => e.errorMsg
  | e1 :: e2 :: rest => String.mk (multiErrBuf (e1 :: e2 :: rest)).data.dropLast
termination_by (sizeOf items, 1)

/-- The buffer written by the loop of `MultiError.Error`'s default branch
(`multi_error.go:61-65`): each stored error's message followed by `'\n'`. -/
def multiErrBuf : List Err → String
  | [] => ""
  | e :: rest => e.errorMsg ++ "\n" ++ multiErrBuf rest
termination_by l => (sizeOf l, 0)

end

mutual

/-- `errors.Is err target` of the Go standard library, for non-nil `err`
and non-nil `target`, specialised to the three concrete error types of the
model.  The standard loop is: compare `err == target`; consult `err`'s
`Is` method if it has one; step to `Unwrap err` and repeat, stopping at
nil.  Unfolding that loop over the model's types gives:

* `Err.base` has neither an `Is` nor an `Unwrap` method, so only the
  interface comparison applies;
* `Err.stack` has no `Is` method and `Unwrap` returns `origErr`
  (`stack_error.go:89`), so the loop continues into `orig` when non-nil;
* `Err.multi` has `MultiError.Is` (compare the first stored item,
  `multi_error.go:253`) and `MultiError.Unwrap` (the sole item when one is
  stored, else a freshly allocated aggregate of the items after the first,
  `multi_error.go:211`).  A freshly allocated aggregate is a new pointer,
  never interface-equal to the pre-existing `target`, so iterating
  Is/Unwrap visits each stored item in turn: the loop returns true exactly
  when the interface comparison succeeds or some stored item matches
  recursively. -/
def errIs : Err → Err → Bool
  | e, t =>
    goPtrEq e t ||
      match e with
      | .base _ _ => false
      | .stack _ orig _ _ =>
        match orig with
        | none => false
        | some o => errIs o t
      | .multi _ items _ => errIsAny items t

/-- Fold of `errIs` over a list of stored errors, as produced by the
recursive Is/Unwrap walk through a `MultiError` (see `errIs`). -/
def errIsAny : List Err → Err → Bool
  | [], _ => false
  | e :: rest, t => errIs e t || errIsAny rest t

end

/-- The `MultiError` struct of `multi_error.go:20`: the stored errors and
whether the mutex field `mu` is non-nil.  A `*MultiError` receiver, which
may be the nil pointer ("uninitialized"), is `Option MultiError`, with the
pointer id carried in `id`. -/
structure MultiError : Type where
  id : Nat
  errors : List Err
  hasMu : Bool
deriving Repr

/-- A non-nil `*MultiError` seen as a Go `error` interface value. -/
def MultiError.toErr (m : MultiError) : Err :=
  .multi m.id m.errors m.hasMu

/-- `NewMultiError` (`multi_error.go:31`): empty errors, mutex allocated. -/
def NewMultiError (fresh : Nat) : MultiError :=
  { id := fresh, errors := [], hasMu := true }

/-- `newMultiError` (`multi_error.go:39`): empty errors, nil mutex. -/
def newMultiError (fresh : Nat) : MultiError :=
  { id := fresh, errors := [], hasMu := false }

/-- `MultiError.Error` (`multi_error.go:48`) on a possibly-nil receiver:
empty string for the nil pointer, else `multiErrorStr` on the stored
errors (locking is irrelevant in the sequential model). -/
def MultiError.goError : Option MultiError → String
  | none => ""
  | some m => multiErrorStr m.errors

/-- `MultiError.Add` (`multi_error.go:73`) on a possibly-nil receiver.
For each non-nil argument in order: allocate a fresh aggregate via
`newMultiError` if the receiver is still nil, then append the error.  The
fresh pointer id `fresh` is used for that (at most one) allocation.
Returns the receiver, eventually initialized. -/
def MultiError.goAdd (fresh : Nat) : Option MultiError → List (Option Err) → Option MultiError
  | mErr, [] => mErr
  | mErr, err :: rest =>
    match err with
    | none => MultiError.goAdd fresh mErr rest
    | some e =>
      let m := match mErr with
        | none => newMultiError fresh
        | some mm => mm
      MultiError.goAdd fresh (some { m with errors := m.errors ++ [e] }) rest

/-- `MultiError.hasError` (`multi_error.go:116`): whether some stored
error `storedErr` satisfies `errors.Is storedErr err` for the candidate
`err`.  Note the direction: the stored error is the first argument of
`errors.Is`, the candidate is the target. -/
def MultiError.hasError (m : MultiError) (err : Err) : Bool :=
  m.errors.any (fun storedErr => errIs storedErr err)

/-- `MultiError.AddOnce` (`multi_error.go:92`) on a possibly-nil receiver.
Like `goAdd`, but a candidate already present according to `hasError` is
skipped. -/
def MultiError.goAddOnce (fresh : Nat) : Option MultiError → List (Option Err) → Option MultiError
  | mErr, [] => mErr
  | mErr, err :: rest =>
    match err with
    | none => MultiError.goAddOnce fresh mErr rest
    | some e =>
      let m := match mErr with
        | none => newMultiError fresh
        | some mm => mm
      if m.hasError e then
        MultiError.goAddOnce fresh (some m) rest
      else
        MultiError.goAddOnce fresh (some { m with errors := m.errors ++ [e] }) rest

/-- The `make`+`copy` in `MultiError.Errors` (`multi_error.go:132-133`):
a fresh slice of the same length receiving every element in order. -/
def copySlice : List Err → List Err
  | [] => []
  | e :: rest => e :: copySlice rest

/-- `MultiError.Errors` (`multi_error.go:127`): nil slice for the nil
receiver, else a copy of the stored errors. -/
def MultiError.goErrors : Option MultiError → Option (List Err)
  | none => none
  | some m => some (copySlice m.errors)

/-- `MultiError.ErrOrNil` (`multi_error.go:159`): nil for the nil receiver
or an empty aggregate, the sole stored error if exactly one, the receiver
itself otherwise. -/
def MultiError.goErrOrNil : Option MultiError → Option Err
  | none => none
  | some m =>
    match m.errors with
    | [] => none
    | [e] => some e
    | _ => some m.toErr

/-- `MultiError.Unwrap` (`multi_error.go:211`): nil for the nil receiver
or no stored errors; the sole stored error if exactly one; otherwise a
freshly allocated aggregate (`NewMultiError` when the receiver's mutex is
set, `newMultiError` otherwise, so `hasMu` is preserved) filled by `Add`
with the stored errors after the first.  The Go code discards `Add`'s
return value because the receiver it passes is non-nil, so `Add` mutates
it in place; the model keeps `Add`'s result, which is that same
aggregate. -/
def MultiError.goUnwrap (fresh : Nat) : Option MultiError → Option Err
  | none => none
  | some m =>
    match m.errors with
    | [] => none
    | [e] => some e
    | _ :: rest =>
      let newMultiErr := if m.hasMu then NewMultiError fresh else newMultiError fresh
      Option.map MultiError.toErr
        (MultiError.goAdd fresh (some newMultiErr) (rest.map some))

/-- `errors.Is err target` with a possibly-nil target: a nil target
matches no non-nil error (the loop's interface comparison is against the
nil interface and our errors implement no `Is` method accepting nil). -/
def optErrIs (e : Err) : Option Err → Bool
  | none => false
  | some t => errIs e t

/-- `MultiError.Is` (`multi_error.go:253`).  On the nil receiver the code
returns `mErr == target`: the receiver converted to an interface is a
non-nil interface holding the nil `*MultiError` pointer, which equals
neither the nil interface nor any of the model's error values (each of
which denotes a live allocation), so the comparison is false.  Otherwise,
with at least one stored error, `errors.Is` of the first stored error
against the target; false when empty. -/
def MultiError.goIs : Option MultiError → Option Err → Bool
  | none, _ => false
  | some m, target =>
    match m.errors with
    | e :: _ => optErrIs e target
    | [] => false

/-- `MultiError.As` (`multi_error.go:237`).  `errors.As(errors[0], target)`
is abstracted by the predicate `asTarget` (what `errors.As · target`
returns for the given concrete target): false on the nil receiver, the
predicate on the first stored error when at least one is stored, false
when empty — the `len > 0` guard means `items[0]` is never read on an
empty aggregate. -/
def MultiError.goAs (asTarget : Err → Bool) : Option MultiError → Bool
  | none => false
  | some m =>
    match m.errors with
    | e :: _ => asTarget e
    | [] => false

/-- `Wrap` (`stack_error.go:117`).  Returns nil on a nil argument.
Otherwise allocates a `stackError` (fresh pointer `fresh`) with the
argument as original error and the given message; its stack is
`captured ++ `the argument's stack when the argument is a `*stackError`
(there `captured` stands for `getCallStack 1`), and just `captured`
otherwise (there it stands for `getCallStack maxStackFrames`). -/
def Wrap (fresh : Nat) (captured : List Nat) (err : Option Err) (msg : String) : Option Err :=
  match err with
  | none => none
  | some e =>
    let stackPCs :=
      match e with
      | .stack _ _ pcs _ => captured ++ pcs
      | _ => captured
    some (.stack fresh (some e) stackPCs msg)

/-- The `stackPCs` field of a `*stackError`; empty for the other error
types (which carry no frames). -/
def Err.framesOf : Err → List Nat
  | .stack _ _ pcs _ => pcs
  | _ => []

/-- `stackError.writeMsg` (`stack_error.go:77`): the message, then, when
an original error is present, `": "` (only if the message is non-empty)
followed by the original error's `Error()` text. -/
def writeMsgStr (orig : Option Err) (msg : String) : String :=
  msg ++
    match orig with
    | none => ""
    | some o => (if msg = "" then "" else ": ") ++ o.errorMsg

mutual

/-- The text an error value writes to the `fmt.State` for a given verb
with no flags set (in particular without `'+'`).
For `Err.base` (no `fmt.Formatter` implementation) the caller falls back
to `io.WriteString(f, err.Error())` (`multi_error.go:200`).
For `Err.stack`, `stackError.Format` (`stack_error.go:54`): verb `'v'`
without the `'+'` flag falls through to the `'s'` case which writes
`writeMsg`; any other verb writes nothing.
For `Err.multi`, `MultiError.Format` (`multi_error.go:179`) on a non-nil
receiver: nothing when no errors are stored, else the loop
`formatItems`. -/
def renderGo (verb : Char) : Err → String
  | .base _ msg => msg
  | .stack _ orig _ msg =>
    if verb = 'v' ∨ verb = 's' then writeMsgStr orig msg else ""
  | .multi _ items _ =>
    match items with
    | [] => ""
    | e :: rest => formatItems verb 1 (e :: rest)
termination_by e => (sizeOf e, 0)

/-- The loop of `MultiError.Format` (`multi_error.go:191-205`), with `i`
the 1-based index of the current item: when the verb is `'v'` a header
`error #<i>` line is written (regardless of any flag), then the item's own
`Format` output if it implements `fmt.Formatter`, else its `Error()` text,
then a newline separator unless the item is the last one. -/
def formatItems (verb : Char) (i : Nat) : List Err → String
  | [] => ""
  | e :: rest =>
    (if verb = 'v' then "error #" ++ toString i ++ "\n" else "")
      ++ renderGo verb e
      ++ (if rest.isEmpty then "" else "\n")
      ++ formatItems verb (i + 1) rest
termination_by l => (sizeOf l, 1)

end

/-- `MultiError.Format` (`multi_error.go:179`) on a possibly-nil receiver
for a verb with no flags: nothing for the nil pointer, else the loop over
the stored errors. -/
def MultiError.goFormat (verb : Char) : Option MultiError → String
  | none => ""
  | some m =>
    match m.errors with
    | [] => ""
    | e :: rest => formatItems verb 1 (e :: rest)

/-- The specification's description of `MultiError.Error`'s text for the
stored items: empty for none, the sole item's text for one, "otherwise
every item's text newline-joined (no trailing newline)". -/
def specNewlineJoin : List Err → String
  | [] => ""
  | [e] => e.errorMsg
  | e :: rest => e.errorMsg ++ "\n" ++ specNewlineJoin rest

theorem multiErrBuf_eq_join (l : List Err) (h : l ≠ []) :
    multiErrBuf l = specNewlineJoin l ++ "\n" := by
  induction l with
  | nil => exact absurd rfl h
  | cons e rest ih =>
    cases rest with
    | nil => simp [multiErrBuf, specNewlineJoin, String.append_empty]
    | cons r rrest =>
      rw [multiErrBuf, ih (by simp)]
      simp [specNewlineJoin, String.append_assoc]

theorem mk_dropLast_append_newline (s : String) :
    String.mk (s ++ "\n").data.dropLast = s := by
  rw [String.data_append]
  have h : ("\n" : String).data = ['\n'] := rfl
  rw [h, List.dropLast_concat]

theorem multiErrorStr_eq_specJoin (l : List Err) :
    multiErrorStr l = specNewlineJoin l := by
  match l with
  | [] => simp [multiErrorStr, specNewlineJoin]
  | [e] => simp [multiErrorStr, specNewlineJoin]
  | e1 :: e2 :: rest =>
    rw [multiErrorStr, multiErrBuf_eq_join (e1 :: e2 :: rest) (by simp),
      mk_dropLast_append_newline]

theorem copySlice_eq (l : List Err) : copySlice l = l := by
  induction l with
  | nil => rfl
  | cons e rest ih => rw [copySlice, ih]

theorem goAdd_some (fresh : Nat) (m : MultiError) (errs : List (Option Err)) :
    MultiError.goAdd fresh (some m) errs
      = some { m with errors := m.errors ++ errs.filterMap id } := by
  induction errs generalizing m with
  | nil => simp [MultiError.goAdd]
  | cons head rest ih =>
    cases head with
    | none => simp [MultiError.goAdd, ih]
    | some e => simp [MultiError.goAdd, ih]

theorem goAdd_none (fresh : Nat) (errs : List (Option Err))
    (h : errs.filterMap id ≠ []) :
    MultiError.goAdd fresh none errs = some ⟨fresh, errs.filterMap id, false⟩ := by
  induction errs with
  | nil => exact absurd rfl h
  | cons head rest ih =>
    cases head with
    | none =>
      rw [show MultiError.goAdd fresh none (none :: rest)
            = MultiError.goAdd fresh none rest from rfl]
      rw [ih (by simpa using h)]
      simp
    | some e =>
      rw [show MultiError.goAdd fresh none (some e :: rest)
            = MultiError.goAdd fresh (some ⟨fresh, [e], false⟩) rest from rfl]
      rw [goAdd_some]
      simp

theorem errorMsg_stack_eq_writeMsg (i : Nat) (orig : Option Err) (pcs : List Nat)
    (msg : String) :
    Err.errorMsg (.stack i orig pcs msg) = writeMsgStr orig msg := by
  cases orig with
  | none => simp [Err.errorMsg, writeMsgStr, String.append_empty]
  | some o =>
    by_cases h : msg = ""
    · simp [Err.errorMsg, writeMsgStr, h, String.empty_append]
    · simp [Err.errorMsg, writeMsgStr, h, String.append_assoc]

theorem errorMsg_multi (i : Nat) (items : List Err) (mu : Bool) :
    Err.errorMsg (.multi i items mu) = multiErrorStr items := by
  simp [Err.errorMsg]

theorem renderGo_multi_nil (i : Nat) (mu : Bool) :
    renderGo 'v' (.multi i [] mu) = "" := by
  simp [renderGo]

theorem renderGo_multi_cons (i : Nat) (mu : Bool) (e : Err) (rest : List Err) :
    renderGo 'v' (.multi i (e :: rest) mu) = formatItems 'v' 1 (e :: rest) := by
  simp [renderGo]

theorem multiErrorStr_length (l : List Err) (h : l ≠ []) :
    (multiErrorStr l).length + 1 = (multiErrBuf l).length := by
  rw [multiErrorStr_eq_specJoin, multiErrBuf_eq_join l h, String.length_append]
  have hn : ("\n" : String).length = 1 := by decide
  omega

mutual

theorem errorMsg_length_le_renderGo (e : Err) :
    (Err.errorMsg e).length ≤ (renderGo 'v' e).length := by
  match e with
  | .base i msg => simp [Err.errorMsg, renderGo]
  | .stack i orig pcs msg =>
    rw [errorMsg_stack_eq_writeMsg]
    simp [renderGo]
  | .multi i items mu =>
    match items with
    | [] => simp [errorMsg_multi, multiErrorStr, renderGo_multi_nil]
    | e1 :: rest =>
      have hb := multiErrBuf_length_le_formatItems (e1 :: rest) 1 (by simp)
      have hs := multiErrorStr_length (e1 :: rest) (by simp)
      rw [errorMsg_multi, renderGo_multi_cons]
      omega
termination_by (sizeOf e, 0)

theorem multiErrBuf_length_le_formatItems (l : List Err) (i : Nat) (h : l ≠ []) :
    (multiErrBuf l).length + 7 ≤ (formatItems 'v' i l).length := by
  have h7 : ("error #" : String).length = 7 := by decide
  have hn : ("\n" : String).length = 1 := by decide
  match l with
  | [e] =>
    have ha := errorMsg_length_le_renderGo e
    simp [multiErrBuf, formatItems, String.length_append, h7, hn]
    omega
  | e :: r :: rest =>
    have ha := errorMsg_length_le_renderGo e
    have ih := multiErrBuf_length_le_formatItems (r :: rest) (i + 1) (by simp)
    simp only [multiErrBuf, formatItems] at ih ⊢
    simp [String.length_append, h7, hn] at ih ⊢
    omega
termination_by (sizeOf l, 1)

end

/-- **C1** (counterexample): with the empty message, `Wrap`'s result has the
original error's text alone, not `"" ++ ": "` prefixed to it, refuting the
claim's "for every message string m". -/
theorem claim1_counterexample :
    Option.map Err.errorMsg (Wrap 0 [] (some (Err.base 1 "boom")) "") = some "boom"
    ∧ some "boom" ≠ some ("" ++ ": " ++ "boom") := by
  refine ⟨by simp [Wrap, Err.errorMsg], by decide⟩

/-- **C1** (amended): for every non-nil error `err` and every non-empty
message `m`, `Wrap(err, m).Error()` equals `m ++ ": " ++ err.Error()`; when
`m` is empty it equals `err.Error()` alone; and `Wrap(nil, m)` returns nil
for every `m`. -/
theorem claim1_wrap_error_text (fresh : Nat) (captured : List Nat) (e : Err)
    (m : String) :
    (m ≠ "" → Option.map Err.errorMsg (Wrap fresh captured (some e) m)
        = some (m ++ ": " ++ e.errorMsg))
    ∧ (m = "" → Option.map Err.errorMsg (Wrap fresh captured (some e) m)
        = some e.errorMsg)
    ∧ Wrap fresh captured none m = none := by
  refine ⟨fun h => ?_, fun h => ?_, rfl⟩
  · simp [Wrap, Err.errorMsg, h]
  · simp [Wrap, Err.errorMsg, h]

/-- **C1** (witness): the amended claim at a concrete input. -/
theorem claim1_wrap_error_text_witness :
    Option.map Err.errorMsg (Wrap 0 [] (some (Err.base 1 "boom")) "ctx")
      = some ("ctx" ++ ": " ++ "boom") := by
  have h := (claim1_wrap_error_text 0 [] (Err.base 1 "boom") "ctx").1 (by decide)
  simpa [Err.errorMsg] using h

/-- **C2** (counterexample): `Unwrap` on an aggregate holding exactly one
item returns that item, not nil as the claim states. -/
theorem claim2_counterexample :
    MultiError.goUnwrap 5 (some ⟨0, [Err.base 1 "x"], false⟩) = some (Err.base 1 "x")
    ∧ some (Err.base 1 "x") ≠ (none : Option Err) :=
  ⟨rfl, by simp⟩

/-- **C2** (amended): `Unwrap` returns nil on the nil receiver and on an
aggregate with no stored items; the sole stored item when exactly one is
stored; and, with two or more, a freshly allocated aggregate holding all
stored items except the first, in order, preserving the mutex mode. -/
theorem claim2_unwrap (fresh i : Nat) (mu : Bool) (e e1 e2 : Err) (rest : List Err) :
    MultiError.goUnwrap fresh none = none
    ∧ MultiError.goUnwrap fresh (some ⟨i, [], mu⟩) = none
    ∧ MultiError.goUnwrap fresh (some ⟨i, [e], mu⟩) = some e
    ∧ MultiError.goUnwrap fresh (some ⟨i, e1 :: e2 :: rest, mu⟩)
        = some (Err.multi fresh (e2 :: rest) mu) := by
  refine ⟨rfl, rfl, rfl, ?_⟩
  cases mu <;>
    simp [MultiError.goUnwrap, NewMultiError, newMultiError, goAdd_some,
      MultiError.toErr, List.filterMap_map]

/-- **C3** (counterexample): `err3` wraps `err1`, so `errors.Is(err3, err1)`
holds, yet `AddOnce` stores it anyway: the de-duplication scan asks
`errors.Is(storedErr, candidate)`, whose unwrap walk runs through the
*stored* error, not the candidate. -/
theorem claim3_counterexample :
    errIs (Err.stack 2 (some (Err.base 0 "x")) [] "w") (Err.base 0 "x") = true
    ∧ Option.map MultiError.errors
        (MultiError.goAddOnce 9
          (MultiError.goAddOnce 8
            (MultiError.goAddOnce 7 none [some (Err.base 0 "x")])
            [some (Err.base 1 "y")])
          [some (Err.stack 2 (some (Err.base 0 "x")) [] "w")])
      = some [Err.base 0 "x", Err.base 1 "y", Err.stack 2 (some (Err.base 0 "x")) [] "w"]
    ∧ [Err.base 0 "x", Err.base 1 "y", Err.stack 2 (some (Err.base 0 "x")) [] "w"]
        ≠ [Err.base 0 "x", Err.base 1 "y"] :=
  ⟨rfl, rfl, by simp⟩

/-- **C3** (amended): `AddOnce` de-duplicates a candidate exactly when some
stored error satisfies `errors.Is(storedErr, candidate)`: for errors
`err1`, `err2`, `err3` with `errors.Is(err1, err2)` false and
`errors.Is(err1, err3)` true, `AddOnce(err1); AddOnce(err2); AddOnce(err3)`
leaves exactly `[err1, err2]` stored, in that order. -/
theorem claim3_addOnce_dedup (f1 f2 f3 : Nat) (e1 e2 e3 : Err)
    (h2 : errIs e1 e2 = false) (h3 : errIs e1 e3 = true) :
    Option.map MultiError.errors
      (MultiError.goAddOnce f3
        (MultiError.goAddOnce f2
          (MultiError.goAddOnce f1 none [some e1]) [some e2])
        [some e3])
      = some [e1, e2] := by
  simp [MultiError.goAddOnce, MultiError.hasError, newMultiError, h2, h3]

/-- **C3** (witness): the amended claim at a concrete input (the third
candidate is the very error stored first, so interface equality holds). -/
theorem claim3_addOnce_dedup_witness :
    Option.map MultiError.errors
      (MultiError.goAddOnce 7
        (MultiError.goAddOnce 6
          (MultiError.goAddOnce 5 none [some (Err.base 0 "x")])
          [some (Err.base 1 "y")])
        [some (Err.base 0 "x")])
      = some [Err.base 0 "x", Err.base 1 "y"] :=
  claim3_addOnce_dedup 5 6 7 (Err.base 0 "x") (Err.base 1 "y") (Err.base 0 "x")
    (by decide) (by decide)

/-- **C4**: `ErrOrNil` returns nil on the nil receiver and on an aggregate
with no stored items, the exact stored error value when exactly one is
stored, and the aggregate itself (same allocation) with two or more. -/
theorem claim4_errOrNil (i : Nat) (mu : Bool) (e e1 e2 : Err) (rest : List Err) :
    MultiError.goErrOrNil none = none
    ∧ MultiError.goErrOrNil (some ⟨i, [], mu⟩) = none
    ∧ MultiError.goErrOrNil (some ⟨i, [e], mu⟩) = some e
    ∧ MultiError.goErrOrNil (some ⟨i, e1 :: e2 :: rest, mu⟩)
        = some (MultiError.toErr ⟨i, e1 :: e2 :: rest, mu⟩) :=
  ⟨rfl, rfl, rfl, rfl⟩

/-- **C5**: wrapping a `stackError` prepends exactly the one captured frame
of the `Wrap` call-site to the existing frames, so two wraps add two frames
(`getCallStack 1` having returned one frame each time); wrapping a foreign
error (plain or aggregate) stores exactly the full fresh capture, bounded
by the maximum depth. -/
theorem claim5_wrap_frames (f1 f2 i0 : Nat) (orig : Option Err) (pcs : List Nat)
    (msg ma mb : String) (c1 c2 : List Nat) (h1 : c1.length = 1)
    (h2 : c2.length = 1) (bi mi : Nat) (bm : String) (items : List Err) (mu : Bool)
    (c : List Nat) (_hc : c.length ≤ maxStackFrames) :
    Option.map (fun e => e.framesOf.length)
        (Wrap f2 c2 (Wrap f1 c1 (some (Err.stack i0 orig pcs msg)) ma) mb)
      = some (pcs.length + 2)
    ∧ Option.map Err.framesOf (Wrap f1 c (some (Err.base bi bm)) ma) = some c
    ∧ Option.map Err.framesOf (Wrap f1 c (some (Err.multi mi items mu)) ma) = some c := by
  refine ⟨?_, rfl, rfl⟩
  simp [Wrap, Err.framesOf, h1, h2]
  omega

/-- **C5** (witness): the claim at a concrete input: a three-frame
stackError wrapped twice carries five frames, and wrapping a plain error
stores the fresh capture as is. -/
theorem claim5_wrap_frames_witness :
    Option.map (fun e => e.framesOf.length)
        (Wrap 11 [8] (Wrap 10 [7] (some (Err.stack 0 none [1, 2, 3] "e")) "a") "b")
      = some 5
    ∧ Option.map Err.framesOf (Wrap 10 [4, 5] (some (Err.base 1 "boom")) "a")
      = some [4, 5] := by
  have h := claim5_wrap_frames 10 11 0 none [1, 2, 3] "e" "a" "b" [7] [8] rfl rfl
      1 2 "boom" [] false [4, 5] (by decide)
  exact ⟨by simpa using h.1, h.2.1⟩

/-- **C6**: the aggregate's `Error()` text is empty for the nil receiver or
no items, the single item's text for one, and in general every stored
item's text newline-joined in insertion order with no trailing newline. -/
theorem claim6_error_text (i : Nat) (mu : Bool) (e : Err) (m : MultiError) :
    MultiError.goError none = ""
    ∧ MultiError.goError (some ⟨i, [], mu⟩) = ""
    ∧ MultiError.goError (some ⟨i, [e], mu⟩) = e.errorMsg
    ∧ MultiError.goError (some m) = specNewlineJoin m.errors := by
  refine ⟨rfl, ?_, ?_, ?_⟩
  · simp [MultiError.goError, multiErrorStr]
  · simp [MultiError.goError, multiErrorStr]
  · simp [MultiError.goError, multiErrorStr_eq_specJoin]

/-- **C7**: `Errors` returns the stored contents in insertion order (the
`make`+`copy` snapshot equals the stored list), an empty sequence for an
initialized-but-empty aggregate, and an absent value for the nil
receiver. -/
theorem claim7_errors (i : Nat) (mu : Bool) (m : MultiError) :
    MultiError.goErrors none = none
    ∧ MultiError.goErrors (some m) = some m.errors
    ∧ MultiError.goErrors (some ⟨i, [], mu⟩) = some [] := by
  refine ⟨rfl, ?_, ?_⟩ <;> simp [MultiError.goErrors, copySlice_eq]

/-- **C8** (counterexample): `Add` called on the nil receiver with no
non-nil argument performs no allocation and returns the nil receiver, not
an initialized instance. -/
theorem claim8_counterexample :
    MultiError.goAdd 0 none [none] = none ∧ MultiError.goAdd 0 none [] = none :=
  ⟨rfl, rfl⟩

/-- **C8** (amended): `Add` appends exactly the non-nil arguments, in
order; on the nil receiver it allocates an aggregate (no mutex) and
returns it initialized provided at least one argument is non-nil. -/
theorem claim8_add (fresh : Nat) (m : MultiError) (errs : List (Option Err)) :
    MultiError.goAdd fresh (some m) errs
        = some { m with errors := m.errors ++ errs.filterMap id }
    ∧ (errs.filterMap id ≠ [] →
        MultiError.goAdd fresh none errs = some ⟨fresh, errs.filterMap id, false⟩) :=
  ⟨goAdd_some fresh m errs, goAdd_none fresh errs⟩

/-- **C8** (witness): the amended claim at a concrete input. -/
theorem claim8_add_witness :
    MultiError.goAdd 7 (some ⟨0, [Err.base 1 "a"], true⟩) [some (Err.base 2 "b"), none]
        = some ⟨0, [Err.base 1 "a", Err.base 2 "b"], true⟩
    ∧ MultiError.goAdd 7 none [some (Err.base 2 "b"), none]
        = some ⟨7, [Err.base 2 "b"], false⟩ := by
  have h := claim8_add 7 ⟨0, [Err.base 1 "a"], true⟩ [some (Err.base 2 "b"), none]
  exact ⟨by simpa using h.1, by simpa using h.2 (by simp)⟩

/-- **C9**: `As` and `Is` report no match on the nil receiver and on an
aggregate with no stored items (the length guard avoids any out-of-range
access); with items stored, each consults exactly the first stored item
against the target. -/
theorem claim9_is_as (i : Nat) (mu : Bool) (e : Err) (rest : List Err)
    (target : Option Err) (asTarget : Err → Bool) :
    MultiError.goAs asTarget none = false
    ∧ MultiError.goAs asTarget (some ⟨i, [], mu⟩) = false
    ∧ MultiError.goIs none target = false
    ∧ MultiError.goIs (some ⟨i, [], mu⟩) target = false
    ∧ MultiError.goAs asTarget (some ⟨i, e :: rest, mu⟩) = asTarget e
    ∧ MultiError.goIs (some ⟨i, e :: rest, mu⟩) target = optErrIs e target :=
  ⟨rfl, rfl, rfl, rfl, rfl, rfl⟩

/-- **C10**: formatting a non-empty aggregate with the plain `'v'` verb and
no `'+'` flag writes an `error #<index>` header line before each item (the
header is keyed on the verb alone), so the plain-`%v` rendering is never
equal to the `Error()` text. -/
theorem claim10_plainV_ne_error (m : MultiError) (h : m.errors ≠ []) :
    MultiError.goFormat 'v' (some m) ≠ MultiError.goError (some m) := by
  obtain ⟨i, errs, mu⟩ := m
  cases errs with
  | nil => exact absurd rfl h
  | cons e rest =>
    have hb := multiErrBuf_length_le_formatItems (e :: rest) 1 (by simp)
    have hs := multiErrorStr_length (e :: rest) (by simp)
    intro heq
    simp only [MultiError.goFormat, MultiError.goError] at heq
    have hlen := congrArg String.length heq
    omega

/-- **C10** (witness): the claim at a concrete one-item aggregate, whose
plain-`%v` rendering is `"error #1\nx"` while `Error()` is `"x"`. -/
theorem claim10_plainV_ne_error_witness :
    MultiError.goFormat 'v' (some ⟨0, [Err.base 1 "x"], false⟩)
      ≠ MultiError.goError (some ⟨0, [Err.base 1 "x"], false⟩) :=
  claim10_plainV_ne_error ⟨0, [Err.base 1 "x"], false⟩ (by simp)
